import Mathlib

/-!
Shallow embedding of the MusicProceduralGeneration DSP core
(`src/audio_utils.py`, `src/procedural_generator.py`, `src/lfo.py`).

Machine reals are modelled as `ℝ`; Python `int(x)` is truncation toward
zero (`pyInt`); fallible Python code (KeyError, IndexError,
UnboundLocalError) is modelled with `Except PyError`.  Randomness
(`np.random`) is determinized by an explicit `Rng` record of streams
supplied by the caller.
-/

open Real

noncomputable section

/-- Errors a run of the Python code can raise. -/
inductive PyError where
  | keyError
  | indexError
  | unboundLocalError
  | invalidParameter
  deriving DecidableEq, Repr

/-- Python `int(x)`: truncation toward zero. -/
def pyInt (x : ℝ) : ℤ := if 0 ≤ x then ⌊x⌋ else -⌊-x⌋

/-- `np.clip(x, -1, 1)` on one sample. -/
def clip (x : ℝ) : ℝ := max (-1) (min 1 x)

/-- `np.sign` on a real. -/
def npSign (x : ℝ) : ℝ := if 0 < x then 1 else if x < 0 then -1 else 0

/-- `audio_utils.SAMPLE_RATE`. -/
def SAMPLE_RATE : ℝ := 44100

/-- `audio_utils.midi_to_freq`: `440 * 2 ** ((midi_note - 69) / 12)`. -/
def midi_to_freq (midi_note : ℝ) : ℝ := 440 * (2 : ℝ) ^ ((midi_note - 69) / 12)

/-- `np.linspace(start, stop, num, False)` (endpoint excluded), as used for
the time axis of `generate_tone`. -/
def linspaceF (start stop : ℝ) (num : ℕ) : List ℝ :=
  (List.range num).map fun (k : ℕ) => start + (stop - start) * k / num

/-- Value at index `k` of `np.linspace(start, stop, num)` (endpoint
included); `num = 1` gives `[start]`. -/
def linspaceVal (start stop : ℝ) (num k : ℕ) : ℝ :=
  if num = 1 then start else start + (stop - start) * k / (num - 1)

/-- Envelope gain at index `k` of `audio_utils.apply_envelope`'s `env`
array: ones, then `env[:a] = linspace(0,1,a)`, then
`env[-d:] = linspace(1,0,d)` overwriting any overlap (last write wins). -/
def envVal (N a d k : ℕ) : ℝ :=
  if 0 < d ∧ N - d ≤ k then linspaceVal 1 0 d (k - (N - d))
  else if 0 < a ∧ k < a then linspaceVal 0 1 a k
  else 1

/-- `audio_utils.apply_envelope`. -/
def apply_envelope (signal : List ℝ) (attack decay : ℝ) : List ℝ :=
  let N := signal.length
  let attack_samples := (pyInt (attack * N)).toNat
  let decay_samples := (pyInt (decay * N)).toNat
  signal.zipWith (· * ·) ((List.range N).map (envVal N attack_samples decay_samples))

/-- The six waveform names `audio_utils.generate_tone` recognizes. -/
def validInstruments : List String :=
  ["sine", "square", "triangle", "sawtooth", "fm_sine", "noise_pad"]

/-- `audio_utils.generate_tone`.  The `noise` stream stands for the
`np.random.normal(0, 1, _)` draws of the `noise_pad` branch.  An
unrecognized instrument leaves the local `wave` unassigned, so the final
`wave * volume` raises `UnboundLocalError`. -/
def generate_tone (frequency duration : ℝ) (instrument : String) (volume : ℝ)
    (noise : ℕ → ℝ) : Except PyError (List ℝ) :=
  let N := (pyInt (SAMPLE_RATE * duration)).toNat
  let t := linspaceF 0 duration N
  if instrument = "sine" then
    .ok ((t.map fun x => Real.sin (2 * π * frequency * x)).map (· * volume))
  else if instrument = "square" then
    .ok ((t.map fun x => npSign (Real.sin (2 * π * frequency * x))).map (· * volume))
  else if instrument = "triangle" then
    .ok ((t.map fun x => 2 * Real.arcsin (Real.sin (2 * π * frequency * x)) / π).map (· * volume))
  else if instrument = "sawtooth" then
    .ok ((t.map fun x => 2 * (x * frequency - (⌊0.5 + x * frequency⌋ : ℤ))).map (· * volume))
  else if instrument = "fm_sine" then
    .ok ((t.map fun x =>
      Real.sin (2 * π * frequency * x + 2 * Real.sin (2 * π * (frequency * 2) * x))).map
      (· * volume))
  else if instrument = "noise_pad" then
    .ok ((apply_envelope ((List.range N).map noise) 0.5 0.7).map (· * volume))
  else .error .unboundLocalError

/-- `audio_utils.generate_noise`; the `noise` stream stands for
`np.random.normal(0, 1, n_samples)`. -/
def generate_noise (duration volume : ℝ) (noise : ℕ → ℝ) : List ℝ :=
  (List.range ((pyInt (duration * SAMPLE_RATE)).toNat)).map fun k => noise k * volume

/-- `audio_utils.apply_pan`: `left = signal*(1-pan)/2`,
`right = signal*(1+pan)/2`, stacked as stereo frames. -/
def apply_pan (signal : List ℝ) (pan : ℝ) : List (ℝ × ℝ) :=
  signal.map fun s => (s * (1 - pan) / 2, s * (1 + pan) / 2)

/-- `audio[start:start+len(tone)] += tone[:...]`, truncated at the end of
`audio` exactly as a numpy slice assignment is. -/
def addInto (audio : List ℝ) (start : ℕ) (tone : List ℝ) : List ℝ :=
  audio.take start ++ ((audio.drop start).zipWith (· + ·) tone)
    ++ audio.drop (start + tone.length)

/-- `audio_utils.apply_reverb`: `output[i] += signal[i - delay_samples] * decay`
for `i in range(delay_samples, len(signal))`, then clip. -/
def apply_reverb (signal : List ℝ) (decay delay_time : ℝ) : List ℝ :=
  let d := (pyInt (SAMPLE_RATE * delay_time)).toNat
  let n := signal.length
  (((List.range' d (n - d)).foldl
    (fun o i => o.set i (o.getD i 0 + signal.getD (i - d) 0 * decay)) signal).map clip)

/-- `audio_utils.apply_delay`: feedback comb reading the evolving `output`
array, `output[i] += output[i - delay_samples] * feedback`, then clip. -/
def apply_delay (signal : List ℝ) (delay_time feedback : ℝ) : List ℝ :=
  let d := (pyInt (SAMPLE_RATE * delay_time)).toNat
  let n := signal.length
  (((List.range' d (n - d)).foldl
    (fun o i => o.set i (o.getD i 0 + o.getD (i - d) 0 * feedback)) signal).map clip)

/-- The chorus modulation `int(delay_samples * np.sin(2*pi*rate*i/SAMPLE_RATE))`. -/
def chorusMod (d : ℕ) (rate : ℝ) (i : ℕ) : ℤ :=
  pyInt ((d : ℝ) * Real.sin (2 * π * rate * i / SAMPLE_RATE))

/-- `audio_utils.apply_chorus`: `output[i] += 0.5 * signal[i - mod]` for
`i in range(delay_samples, n)`.  When `i - mod` reaches past the last
index the numpy read raises `IndexError`; reads below `delay_samples`
cannot go negative because `mod <= delay_samples`. -/
def apply_chorus (signal : List ℝ) (depth rate : ℝ) : Except PyError (List ℝ) :=
  let d := (pyInt (depth * SAMPLE_RATE)).toNat
  let n := signal.length
  open Classical in
  if ∀ i ∈ List.range' d (n - d), (i : ℤ) - chorusMod d rate i < n then
    .ok (((List.range' d (n - d)).foldl
      (fun o i => o.set i (o.getD i 0 + 0.5 * signal.getD ((i : ℤ) - chorusMod d rate i).toNat 0))
      signal).map clip)
  else .error .indexError

/-- The phaser shift `int(depth * SAMPLE_RATE * np.sin(2*pi*rate*i/SAMPLE_RATE))`. -/
def phaserShift (depth rate : ℝ) (i : ℕ) : ℤ :=
  pyInt (depth * SAMPLE_RATE * Real.sin (2 * π * rate * i / SAMPLE_RATE))

/-- `audio_utils.apply_phaser`: `if i-shift >= 0: output[i] += signal[i-shift]`
for `i in range(n)`.  A guarded read whose index reaches past the last
index raises `IndexError`. -/
def apply_phaser (signal : List ℝ) (rate depth : ℝ) : Except PyError (List ℝ) :=
  let n := signal.length
  open Classical in
  if ∀ i ∈ List.range n, 0 ≤ (i : ℤ) - phaserShift depth rate i →
      (i : ℤ) - phaserShift depth rate i < n then
    .ok (((List.range n).foldl
      (fun (o : List ℝ) (i : ℕ) =>
        if 0 ≤ (i : ℤ) - phaserShift depth rate i then
          o.set i (o.getD i 0 + signal.getD ((i : ℤ) - phaserShift depth rate i).toNat 0)
        else o)
      signal).map clip)
  else .error .indexError

/-- `audio_utils.apply_stereo_widen`: mid/side rebalance, no clipping. -/
def apply_stereo_widen (chunk : List (ℝ × ℝ)) (amount : ℝ) : List (ℝ × ℝ) :=
  chunk.map fun p =>
    let mid := (p.1 + p.2) / 2
    let side := (p.1 - p.2) / 2 * (1 + amount)
    (mid + side, mid - side)

/-- One step of `scipy.signal.lfilter` (direct form, zero initial
conditions): consumes `fuel` remaining samples, `ys` holds the outputs
computed so far, most recent first. -/
def lfilterGo (b a : List ℝ) (x : List ℝ) : ℕ → List ℝ → List ℝ
  | 0, ys => ys.reverse
  | fuel + 1, ys =>
    let n := ys.length
    let y := ((∑ k ∈ Finset.range b.length,
        if k ≤ n then b.getD k 0 * x.getD (n - k) 0 else 0)
      - (∑ k ∈ Finset.range (a.length - 1),
        if k < n then a.getD (k + 1) 0 * ys.getD k 0 else 0)) / a.getD 0 0
    lfilterGo b a x fuel (y :: ys)

/-- `scipy.signal.lfilter(b, a, x)` on one channel. -/
def lfilter (b a : List ℝ) (x : List ℝ) : List ℝ := lfilterGo b a x x.length []

/-- `audio_utils.apply_filter` on a stereo chunk (`axis=0`: each channel
filtered independently).  Note: no cutoff bypass happens here. -/
def apply_filter (chunk : List (ℝ × ℝ)) (filter_type : String) (cutoff : ℝ) :
    List (ℝ × ℝ) :=
  let ω := 2 * π * cutoff / SAMPLE_RATE
  let b := if filter_type = "low" then [ω / (ω + 1)] else [1 / (ω + 1), -(1 / (ω + 1))]
  let a := [1, (ω - 1) / (ω + 1)]
  (lfilter b a (chunk.map Prod.fst)).zip (lfilter b a (chunk.map Prod.snd))

/-- Apply a mono effect to both channels, as the
`chunk[:,0] = f(chunk[:,0]); chunk[:,1] = f(chunk[:,1])` lines do. -/
def perChannel (f : List ℝ → List ℝ) (chunk : List (ℝ × ℝ)) : List (ℝ × ℝ) :=
  (f (chunk.map Prod.fst)).zip (f (chunk.map Prod.snd))

/-- The `if reverb_amount>0` stage of `process_effects`. -/
def stageReverb (chunk : List (ℝ × ℝ)) (amount : ℝ) : List (ℝ × ℝ) :=
  if amount > 0 then perChannel (fun s => apply_reverb s amount 0.03) chunk else chunk

/-- The `if delay_amount>0` stage of `process_effects`. -/
def stageDelay (chunk : List (ℝ × ℝ)) (amount : ℝ) : List (ℝ × ℝ) :=
  if amount > 0 then perChannel (fun s => apply_delay s 0.2 amount) chunk else chunk

/-- The `if chorus_amount>0` stage of `process_effects`. -/
def stageChorus (chunk : List (ℝ × ℝ)) (amount : ℝ) : Except PyError (List (ℝ × ℝ)) :=
  if amount > 0 then
    match apply_chorus (chunk.map Prod.fst) 0.003 (0.25 * amount) with
    | .error e => .error e
    | .ok l =>
      match apply_chorus (chunk.map Prod.snd) 0.003 (0.25 * amount) with
      | .error e => .error e
      | .ok r => .ok (l.zip r)
  else .ok chunk

/-- The `if phaser_amount>0` stage of `process_effects`. -/
def stagePhaser (chunk : List (ℝ × ℝ)) (amount : ℝ) : Except PyError (List (ℝ × ℝ)) :=
  if amount > 0 then
    match apply_phaser (chunk.map Prod.fst) (0.2 * amount) (0.02 * amount) with
    | .error e => .error e
    | .ok l =>
      match apply_phaser (chunk.map Prod.snd) (0.2 * amount) (0.02 * amount) with
      | .error e => .error e
      | .ok r => .ok (l.zip r)
  else .ok chunk

/-- The `if stereo_widen>0` stage of `process_effects`. -/
def stageWiden (chunk : List (ℝ × ℝ)) (amount : ℝ) : List (ℝ × ℝ) :=
  if amount > 0 then apply_stereo_widen chunk amount else chunk

/-- The `if lowpass_cutoff>20` stage of `process_effects`: the low-pass
filter is applied only above 20 Hz; at or below it the chunk passes
through unchanged. -/
def stageLowpass (chunk : List (ℝ × ℝ)) (cutoff : ℝ) : List (ℝ × ℝ) :=
  if cutoff > 20 then apply_filter chunk "low" cutoff else chunk

/-- The `if highpass_cutoff>20` stage of `process_effects`. -/
def stageHighpass (chunk : List (ℝ × ℝ)) (cutoff : ℝ) : List (ℝ × ℝ) :=
  if cutoff > 20 then apply_filter chunk "high" cutoff else chunk

/-- `audio_utils.process_effects`: fixed stage order, final
`np.clip(chunk, -1, 1)`. -/
def process_effects (chunk : List (ℝ × ℝ))
    (reverb_amount delay_amount lowpass_cutoff highpass_cutoff
      chorus_amount phaser_amount stereo_widen : ℝ) :
    Except PyError (List (ℝ × ℝ)) :=
  match stageChorus (stageDelay (stageReverb chunk reverb_amount) delay_amount)
      chorus_amount with
  | .error e => .error e
  | .ok c3 =>
    match stagePhaser c3 phaser_amount with
    | .error e => .error e
    | .ok c4 =>
      .ok ((stageHighpass
          (stageLowpass (stageWiden c4 stereo_widen) lowpass_cutoff)
          highpass_cutoff).map fun p => (clip p.1, clip p.2))

/-- Determinized `np.random`: one stream per draw site of
`procedural_generator.py`, indexed by the loop iteration making the draw.
Index streams (`…Note`, `chordInv`, `arpStyle`, `melodyDur`) are reduced
mod the length of the list being drawn from, matching `np.random.choice`
and `np.random.randint` returning an element or index of that list. -/
structure Rng where
  droneGate : ℕ → ℝ
  droneNote : ℕ → ℕ
  chordGate : ℕ → ℝ
  chordNote : ℕ → ℕ
  chordInv : ℕ → ℕ
  arpStyle : ℕ → ℕ
  arpPerm : ℕ → List ℕ
  melodyGate : ℕ → ℝ
  melodyNote : ℕ → ℕ
  melodyDur : ℕ → ℕ
  toneNoise : ℕ → ℕ → ℝ
  arpToneNoise : ℕ → ℕ → ℕ → ℝ
  noise : ℕ → ℝ
  pan : ℝ

/-- `procedural_generator.SCALES`, as a partial map from scale name. -/
def SCALES (scale : String) : Option (List ℕ) :=
  if scale = "major" then some [0, 2, 4, 5, 7, 9, 11, 12]
  else if scale = "minor" then some [0, 2, 3, 5, 7, 8, 10, 12]
  else if scale = "pentatonic" then some [0, 2, 4, 7, 9, 12]
  else if scale = "chromatic" then some (List.range 13)
  else none

/-- `procedural_generator.chord_inversion`: cyclic rotation
`chord[inversion:] + chord[:inversion]`. -/
def chord_inversion (chord : List ℕ) (inversion : ℕ) : List ℕ :=
  chord.drop inversion ++ chord.take inversion

/-- The iteration `order` of `generate_arpeggio`: chord INDICES ascending
for style `up`, descending for `down`, a caller-fixed permutation
otherwise. -/
def arpeggioOrder (n_notes : ℕ) (style : String) (perm : List ℕ) : List ℕ :=
  if style = "up" then List.range n_notes
  else if style = "down" then (List.range n_notes).reverse
  else perm

/-- The sequence `order * (beats // n_notes + 1)` of `generate_arpeggio`:
these values are the `note` arguments the loop passes to `midi_to_freq`.
They are chord indices, not chord pitches. -/
def arpeggioNotes (chord : List ℕ) (beats : ℕ) (style : String) (perm : List ℕ) :
    List ℕ :=
  (List.replicate (beats / chord.length + 1) (arpeggioOrder chord.length style perm)).flatten

/-- The body of `generate_arpeggio`'s `for i, note in enumerate(...)` loop:
each `(i, note)` renders a one-beat tone at `midi_to_freq(note)`, shapes
it with `apply_envelope(_, 0.02, 0.3)`, and adds it at sample
`int(i*44100*60/tempo)`. -/
def arpLoop (instrument : String) (volume tempo : ℝ) (toneNoise : ℕ → ℕ → ℝ) :
    List (ℕ × ℕ) → List ℝ → Except PyError (List ℝ)
  | [], audio => .ok audio
  | (i, note) :: rest, audio =>
    match generate_tone (midi_to_freq note) (60 / tempo) instrument volume (toneNoise i) with
    | .error e => .error e
    | .ok tone =>
      arpLoop instrument volume tempo toneNoise rest
        (addInto audio ((pyInt ((i : ℝ) * 44100 * 60 / tempo)).toNat)
          (apply_envelope tone 0.02 0.3))

/-- `procedural_generator.generate_arpeggio`. -/
def generate_arpeggio (chord : List ℕ) (duration : ℝ) (instrument : String)
    (volume : ℝ) (style : String) (tempo : ℝ) (perm : List ℕ)
    (toneNoise : ℕ → ℕ → ℝ) : Except PyError (List ℝ) :=
  let beats := (pyInt (duration / 60 * tempo)).toNat
  arpLoop instrument volume tempo toneNoise
    (arpeggioNotes chord beats style perm).enum
    (List.replicate ((pyInt (duration * 44100)).toNat) 0)

/-- Drone layer of `generate_procedural_chunk`: per beat, with probability
0.8, a one-beat tone at `48 + choice(scale_notes)`, volume 0.08,
envelope (0.3, 0.7), at `int(i*44100*60/tempo)`. -/
def dronePass (rng : Rng) (tempo : ℝ) (scale_notes : List ℕ) (instrument : String) :
    List ℕ → List ℝ → Except PyError (List ℝ)
  | [], audio => .ok audio
  | i :: rest, audio =>
    if rng.droneGate i < 0.8 then
      let root := 48 + scale_notes.getD (rng.droneNote i % scale_notes.length) 0
      match generate_tone (midi_to_freq root) (60 / tempo) instrument 0.08
          (rng.toneNoise i) with
      | .error e => .error e
      | .ok tone =>
        dronePass rng tempo scale_notes instrument rest
          (addInto audio ((pyInt ((i : ℝ) * 44100 * 60 / tempo)).toNat)
            (apply_envelope tone 0.3 0.7))
    else dronePass rng tempo scale_notes instrument rest audio

/-- The `for note in chord` loop of the non-arpeggio chord branch: each
chord tone is rendered over two beats, envelope (0.5, 0.5), volume 0.05,
and added at the slot start. -/
def chordToneLoop (instrument : String) (tempo : ℝ) (noise : ℕ → ℕ → ℝ)
    (start : ℕ) : List (ℕ × ℕ) → List ℝ → Except PyError (List ℝ)
  | [], audio => .ok audio
  | (j, note) :: rest, audio =>
    match generate_tone (midi_to_freq note) (2 * 60 / tempo) instrument 0.05
        (noise j) with
    | .error e => .error e
    | .ok tone =>
      chordToneLoop instrument tempo noise start rest
        (addInto audio start (apply_envelope tone 0.5 0.5))

/-- Chord layer of `generate_procedural_chunk`: per 2-beat slot, with
probability 0.7, a randomly rotated triad rendered either through
`generate_arpeggio` or as three simultaneous tones. -/
def chordPass (rng : Rng) (tempo : ℝ) (scale_notes : List ℕ) (instrument : String)
    (use_arpeggio : Bool) : List ℕ → List ℝ → Except PyError (List ℝ)
  | [], audio => .ok audio
  | i :: rest, audio =>
    if rng.chordGate i < 0.7 then
      let root := 60 + scale_notes.getD (rng.chordNote i % scale_notes.length) 0
      let chord := chord_inversion
        [root, root + scale_notes.getD 2 0, root + scale_notes.getD 4 0]
        (rng.chordInv i % 3)
      let start := (pyInt ((i : ℝ) * 2 * 44100 * 60 / tempo)).toNat
      if use_arpeggio then
        let style := ["up", "down", "random"].getD (rng.arpStyle i % 3) "up"
        match generate_arpeggio chord (2 * 60 / tempo) instrument 0.05 style tempo
            (rng.arpPerm i) (rng.arpToneNoise i) with
        | .error e => .error e
        | .ok arp =>
          chordPass rng tempo scale_notes instrument use_arpeggio rest
            (addInto audio start arp)
      else
        match chordToneLoop instrument tempo (rng.arpToneNoise i) start
            chord.enum audio with
        | .error e => .error e
        | .ok audio2 => chordPass rng tempo scale_notes instrument use_arpeggio rest audio2
    else chordPass rng tempo scale_notes instrument use_arpeggio rest audio

/-- Melody layer of `generate_procedural_chunk`: per beat, with probability
0.3, a tone at `60 + choice(scale_notes)` lasting
`60/tempo * choice([0.5, 1, 1.5])`, volume 0.07, envelope (0.05, 0.5). -/
def melodyPass (rng : Rng) (tempo : ℝ) (scale_notes : List ℕ) (instrument : String) :
    List ℕ → List ℝ → Except PyError (List ℝ)
  | [], audio => .ok audio
  | i :: rest, audio =>
    if rng.melodyGate i < 0.3 then
      let note := 60 + scale_notes.getD (rng.melodyNote i % scale_notes.length) 0
      let dur_note := 60 / tempo * ([0.5, 1, 1.5].getD (rng.melodyDur i % 3) 1)
      match generate_tone (midi_to_freq note) dur_note instrument 0.07
          (rng.toneNoise i) with
      | .error e => .error e
      | .ok tone =>
        melodyPass rng tempo scale_notes instrument rest
          (addInto audio ((pyInt ((i : ℝ) * 44100 * 60 / tempo)).toNat)
            (apply_envelope tone 0.05 0.5))
    else melodyPass rng tempo scale_notes instrument rest audio

/-- `procedural_generator.generate_procedural_chunk`: drone, chord and
melody layers accumulate into a zero buffer of `int(duration*44100)`
samples, the noise layer is added, the mono mix is clipped to [-1, 1] and
panned into stereo with a pan drawn uniformly from [-0.5, 0.5]. -/
def generate_procedural_chunk (duration tempo : ℝ) (scale instrument : String)
    (use_arpeggio : Bool) (rng : Rng) : Except PyError (List (ℝ × ℝ)) :=
  let beats := (pyInt (duration / 60 * tempo)).toNat
  let audio0 : List ℝ := List.replicate ((pyInt (duration * 44100)).toNat) 0
  match SCALES scale with
  | none => .error .keyError
  | some scale_notes =>
    match dronePass rng tempo scale_notes instrument (List.range beats) audio0 with
    | .error e => .error e
    | .ok a1 =>
      match chordPass rng tempo scale_notes instrument use_arpeggio
          (List.range (beats / 2)) a1 with
      | .error e => .error e
      | .ok a2 =>
        match melodyPass rng tempo scale_notes instrument (List.range beats) a2 with
        | .error e => .error e
        | .ok a3 =>
          .ok (apply_pan
            ((a3.zipWith (· + ·) (generate_noise duration 0.02 rng.noise)).map clip)
            rng.pan)

/-- `lfo.LFO`: stateful phase-accumulating oscillator. -/
structure LFO where
  freq : ℝ
  depth : ℝ
  waveform : String
  phase : ℝ

/-- `lfo.LFO.step`: advances `phase` by `2*pi*freq*dt` first, then
dispatches on `waveform`; an unrecognized waveform falls through to
`return 0`.  Returns the updated oscillator and the emitted value. -/
def LFO.step (l : LFO) (dt : ℝ) : LFO × ℝ :=
  let phase2 := l.phase + 2 * π * l.freq * dt
  let value :=
    if l.waveform = "sine" then Real.sin phase2 * l.depth
    else if l.waveform = "triangle" then
      (2 / π) * Real.arcsin (Real.sin phase2) * l.depth
    else if l.waveform = "square" then npSign (Real.sin phase2) * l.depth
    else if l.waveform = "sawtooth" then
      ((phase2 - 2 * π * ⌊phase2 / (2 * π)⌋) / π - 1) * l.depth
    else 0
  ({ l with phase := phase2 }, value)

/-- A concrete deterministic random source used for concrete runs. -/
def rng0 : Rng where
  droneGate := fun _ => 1
  droneNote := fun _ => 0
  chordGate := fun _ => 1
  chordNote := fun _ => 0
  chordInv := fun _ => 0
  arpStyle := fun _ => 0
  arpPerm := fun _ => []
  melodyGate := fun _ => 1
  melodyNote := fun _ => 0
  melodyDur := fun _ => 0
  toneNoise := fun _ _ => 0
  arpToneNoise := fun _ _ _ => 0
  noise := fun _ => 0
  pan := 0

theorem pyInt_nonneg {x : ℝ} (h : 0 ≤ x) : 0 ≤ pyInt x := by
  unfold pyInt
  rw [if_pos h]
  exact Int.floor_nonneg.mpr h

theorem addInto_length (audio : List ℝ) (start : ℕ) (tone : List ℝ) :
    (addInto audio start tone).length = audio.length := by
  simp [addInto]
  omega

theorem apply_envelope_length (signal : List ℝ) (attack decay : ℝ) :
    (apply_envelope signal attack decay).length = signal.length := by
  simp [apply_envelope]

theorem clip_mem (x : ℝ) : -1 ≤ clip x ∧ clip x ≤ 1 := by
  unfold clip
  exact ⟨le_max_left _ _, max_le (by norm_num) (min_le_left _ _)⟩

theorem abs_mul_volume_le {w v : ℝ} (hw : |w| ≤ 1) (hv : 0 ≤ v) : |w * v| ≤ v := by
  rw [abs_mul, abs_of_nonneg hv]
  calc |w| * v ≤ 1 * v := mul_le_mul_of_nonneg_right hw hv
  _ = v := one_mul v

theorem abs_npSign_le_one (x : ℝ) : |npSign x| ≤ 1 := by
  unfold npSign
  split_ifs <;> norm_num

theorem abs_triangle_wave_le_one (y : ℝ) : |2 * Real.arcsin y / π| ≤ 1 := by
  have h1 := Real.arcsin_le_pi_div_two y
  have h2 := Real.neg_pi_div_two_le_arcsin y
  have hp := Real.pi_pos
  rw [abs_le]
  constructor
  · rw [le_div_iff₀ hp]
    linarith
  · rw [div_le_iff₀ hp]
    linarith

theorem abs_sawtooth_wave_le_one (y : ℝ) : |2 * (y - (⌊(0.5 : ℝ) + y⌋ : ℤ))| ≤ 1 := by
  have h1 : ((⌊(0.5 + y : ℝ)⌋ : ℤ) : ℝ) ≤ 0.5 + y := Int.floor_le _
  have h2 : (0.5 + y : ℝ) < ⌊(0.5 + y : ℝ)⌋ + 1 := Int.lt_floor_add_one _
  rw [abs_le]
  constructor <;> linarith

theorem linspaceF_length (s e : ℝ) (n : ℕ) : (linspaceF s e n).length = n := by
  unfold linspaceF
  rw [List.length_map, List.length_range]

theorem generate_tone_sine (frequency duration volume : ℝ) (noise : ℕ → ℝ) :
    generate_tone frequency duration "sine" volume noise =
      .ok ((linspaceF 0 duration ((pyInt (SAMPLE_RATE * duration)).toNat)).map
        fun x => Real.sin (2 * π * frequency * x) * volume) := by
  simp [generate_tone, List.map_map, Function.comp]

theorem generate_tone_square (frequency duration volume : ℝ) (noise : ℕ → ℝ) :
    generate_tone frequency duration "square" volume noise =
      .ok ((linspaceF 0 duration ((pyInt (SAMPLE_RATE * duration)).toNat)).map
        fun x => npSign (Real.sin (2 * π * frequency * x)) * volume) := by
  simp [generate_tone, List.map_map, Function.comp]

theorem generate_tone_triangle (frequency duration volume : ℝ) (noise : ℕ → ℝ) :
    generate_tone frequency duration "triangle" volume noise =
      .ok ((linspaceF 0 duration ((pyInt (SAMPLE_RATE * duration)).toNat)).map
        fun x => 2 * Real.arcsin (Real.sin (2 * π * frequency * x)) / π * volume) := by
  simp [generate_tone, List.map_map, Function.comp]

theorem generate_tone_sawtooth (frequency duration volume : ℝ) (noise : ℕ → ℝ) :
    generate_tone frequency duration "sawtooth" volume noise =
      .ok ((linspaceF 0 duration ((pyInt (SAMPLE_RATE * duration)).toNat)).map
        fun x => 2 * (x * frequency - (⌊(0.5 : ℝ) + x * frequency⌋ : ℤ)) * volume) := by
  simp [generate_tone, List.map_map, Function.comp]

theorem generate_tone_fm_sine (frequency duration volume : ℝ) (noise : ℕ → ℝ) :
    generate_tone frequency duration "fm_sine" volume noise =
      .ok ((linspaceF 0 duration ((pyInt (SAMPLE_RATE * duration)).toNat)).map
        fun x => Real.sin (2 * π * frequency * x
          + 2 * Real.sin (2 * π * (frequency * 2) * x)) * volume) := by
  simp [generate_tone, List.map_map, Function.comp]

theorem generate_tone_noise_pad (frequency duration volume : ℝ) (noise : ℕ → ℝ) :
    generate_tone frequency duration "noise_pad" volume noise =
      .ok ((apply_envelope
        ((List.range ((pyInt (SAMPLE_RATE * duration)).toNat)).map noise) 0.5 0.7).map
        (· * volume)) := by
  simp [generate_tone]

/-- With an instrument name outside the recognized six, the `if` chain of
`generate_tone` falls through, `wave` is never assigned, and the final
`wave * volume` raises `UnboundLocalError`. -/
theorem generate_tone_unknown (frequency duration volume : ℝ) (noise : ℕ → ℝ)
    (instrument : String) (hi : instrument ∉ validInstruments) :
    generate_tone frequency duration instrument volume noise =
      .error .unboundLocalError := by
  simp only [validInstruments, List.mem_cons, List.not_mem_nil, or_false, not_or] at hi
  obtain ⟨h1, h2, h3, h4, h5, h6⟩ := hi
  simp [generate_tone, h1, h2, h3, h4, h5, h6]

/-- For each of the six recognized instruments, `generate_tone` succeeds,
the buffer has `int(44100 * duration)` samples, and for the five
deterministic waveforms every sample is volume-bounded. -/
theorem generate_tone_spec (frequency duration volume : ℝ) (noise : ℕ → ℝ)
    (instrument : String) (hi : instrument ∈ validInstruments) (hv : 0 ≤ volume) :
    ∃ w, generate_tone frequency duration instrument volume noise = .ok w ∧
      w.length = (pyInt (SAMPLE_RATE * duration)).toNat ∧
      (instrument ≠ "noise_pad" → ∀ x ∈ w, |x| ≤ volume) := by
  simp only [validInstruments, List.mem_cons, List.not_mem_nil, or_false] at hi
  rcases hi with rfl | rfl | rfl | rfl | rfl | rfl
  · refine ⟨_, generate_tone_sine frequency duration volume noise,
      by rw [List.length_map, linspaceF_length], fun _ x hx => ?_⟩
    obtain ⟨z, -, rfl⟩ := List.mem_map.mp hx
    exact abs_mul_volume_le (Real.abs_sin_le_one _) hv
  · refine ⟨_, generate_tone_square frequency duration volume noise,
      by rw [List.length_map, linspaceF_length], fun _ x hx => ?_⟩
    obtain ⟨z, -, rfl⟩ := List.mem_map.mp hx
    exact abs_mul_volume_le (abs_npSign_le_one _) hv
  · refine ⟨_, generate_tone_triangle frequency duration volume noise,
      by rw [List.length_map, linspaceF_length], fun _ x hx => ?_⟩
    obtain ⟨z, -, rfl⟩ := List.mem_map.mp hx
    exact abs_mul_volume_le (abs_triangle_wave_le_one _) hv
  · refine ⟨_, generate_tone_sawtooth frequency duration volume noise,
      by rw [List.length_map, linspaceF_length], fun _ x hx => ?_⟩
    obtain ⟨z, -, rfl⟩ := List.mem_map.mp hx
    exact abs_mul_volume_le (abs_sawtooth_wave_le_one _) hv
  · refine ⟨_, generate_tone_fm_sine frequency duration volume noise,
      by rw [List.length_map, linspaceF_length], fun _ x hx => ?_⟩
    obtain ⟨z, -, rfl⟩ := List.mem_map.mp hx
    exact abs_mul_volume_le (Real.abs_sin_le_one _) hv
  · refine ⟨_, generate_tone_noise_pad frequency duration volume noise,
      ?_, fun h => absurd rfl h⟩
    rw [List.length_map, apply_envelope_length, List.length_map, List.length_range]

theorem arpLoop_spec (instrument : String) (volume tempo : ℝ) (toneNoise : ℕ → ℕ → ℝ)
    (hi : instrument ∈ validInstruments) (hv : 0 ≤ volume) :
    ∀ (notes : List (ℕ × ℕ)) (audio : List ℝ),
      ∃ a2, arpLoop instrument volume tempo toneNoise notes audio = .ok a2 ∧
        a2.length = audio.length := by
  intro notes
  induction notes with
  | nil => exact fun audio => ⟨audio, rfl, rfl⟩
  | cons p rest ih =>
    obtain ⟨i, note⟩ := p
    intro audio
    obtain ⟨w, hw, -, -⟩ := generate_tone_spec (midi_to_freq note) (60 / tempo) volume
      (toneNoise i) instrument hi hv
    obtain ⟨a2, h2, hlen⟩ := ih
      (addInto audio ((pyInt ((i : ℝ) * 44100 * 60 / tempo)).toNat)
        (apply_envelope w 0.02 0.3))
    refine ⟨a2, ?_, by rw [hlen, addInto_length]⟩
    simp only [arpLoop, hw]
    exact h2

theorem generate_arpeggio_spec (chord : List ℕ) (duration : ℝ) (instrument : String)
    (volume : ℝ) (style : String) (tempo : ℝ) (perm : List ℕ)
    (toneNoise : ℕ → ℕ → ℝ) (hi : instrument ∈ validInstruments) (hv : 0 ≤ volume) :
    ∃ arp, generate_arpeggio chord duration instrument volume style tempo perm
        toneNoise = .ok arp ∧
      arp.length = (pyInt (duration * 44100)).toNat := by
  obtain ⟨arp, h, hlen⟩ := arpLoop_spec instrument volume tempo toneNoise hi hv
    (arpeggioNotes chord ((pyInt (duration / 60 * tempo)).toNat) style perm).enum
    (List.replicate ((pyInt (duration * 44100)).toNat) 0)
  exact ⟨arp, h, by rw [hlen, List.length_replicate]⟩

theorem dronePass_spec (rng : Rng) (tempo : ℝ) (scale_notes : List ℕ)
    (instrument : String) (hi : instrument ∈ validInstruments) :
    ∀ (is : List ℕ) (audio : List ℝ),
      ∃ a2, dronePass rng tempo scale_notes instrument is audio = .ok a2 ∧
        a2.length = audio.length := by
  intro is
  induction is with
  | nil => exact fun audio => ⟨audio, rfl, rfl⟩
  | cons i rest ih =>
    intro audio
    by_cases hg : rng.droneGate i < 0.8
    · obtain ⟨w, hw, -, -⟩ := generate_tone_spec
        (midi_to_freq ((48 + scale_notes.getD (rng.droneNote i % scale_notes.length) 0 : ℕ) : ℝ))
        (60 / tempo) 0.08 (rng.toneNoise i) instrument hi (by norm_num)
      obtain ⟨a2, h2, hlen⟩ := ih
        (addInto audio ((pyInt ((i : ℝ) * 44100 * 60 / tempo)).toNat)
          (apply_envelope w 0.3 0.7))
      refine ⟨a2, ?_, by rw [hlen, addInto_length]⟩
      simp only [dronePass, if_pos hg, hw]
      exact h2
    · obtain ⟨a2, h2, hlen⟩ := ih audio
      refine ⟨a2, ?_, hlen⟩
      simp only [dronePass, if_neg hg]
      exact h2

theorem chordToneLoop_spec (instrument : String) (tempo : ℝ) (noise : ℕ → ℕ → ℝ)
    (start : ℕ) (hi : instrument ∈ validInstruments) :
    ∀ (notes : List (ℕ × ℕ)) (audio : List ℝ),
      ∃ a2, chordToneLoop instrument tempo noise start notes audio = .ok a2 ∧
        a2.length = audio.length := by
  intro notes
  induction notes with
  | nil => exact fun audio => ⟨audio, rfl, rfl⟩
  | cons p rest ih =>
    obtain ⟨j, note⟩ := p
    intro audio
    obtain ⟨w, hw, -, -⟩ := generate_tone_spec (midi_to_freq note) (2 * 60 / tempo)
      0.05 (noise j) instrument hi (by norm_num)
    obtain ⟨a2, h2, hlen⟩ := ih (addInto audio start (apply_envelope w 0.5 0.5))
    refine ⟨a2, ?_, by rw [hlen, addInto_length]⟩
    simp only [chordToneLoop, hw]
    exact h2

theorem chordPass_spec (rng : Rng) (tempo : ℝ) (scale_notes : List ℕ)
    (instrument : String) (use_arpeggio : Bool)
    (hi : instrument ∈ validInstruments) :
    ∀ (is : List ℕ) (audio : List ℝ),
      ∃ a2, chordPass rng tempo scale_notes instrument use_arpeggio is audio = .ok a2 ∧
        a2.length = audio.length := by
  intro is
  induction is with
  | nil => exact fun audio => ⟨audio, rfl, rfl⟩
  | cons i rest ih =>
    intro audio
    by_cases hg : rng.chordGate i < 0.7
    · by_cases hu : use_arpeggio = true
      · obtain ⟨arp, harp, -⟩ := generate_arpeggio_spec
          (chord_inversion
            [60 + scale_notes.getD (rng.chordNote i % scale_notes.length) 0,
              60 + scale_notes.getD (rng.chordNote i % scale_notes.length) 0
                + scale_notes.getD 2 0,
              60 + scale_notes.getD (rng.chordNote i % scale_notes.length) 0
                + scale_notes.getD 4 0]
            (rng.chordInv i % 3))
          (2 * 60 / tempo) instrument 0.05
          (["up", "down", "random"].getD (rng.arpStyle i % 3) "up") tempo
          (rng.arpPerm i) (rng.arpToneNoise i) hi (by norm_num)
        obtain ⟨a2, h2, hlen⟩ := ih
          (addInto audio ((pyInt ((i : ℝ) * 2 * 44100 * 60 / tempo)).toNat) arp)
        refine ⟨a2, ?_, by rw [hlen, addInto_length]⟩
        simp only [chordPass, if_pos hg, if_pos hu, harp]
        exact h2
      · obtain ⟨amid, hmid, hmidlen⟩ := chordToneLoop_spec instrument tempo
          (rng.arpToneNoise i) ((pyInt ((i : ℝ) * 2 * 44100 * 60 / tempo)).toNat) hi
          (chord_inversion
            [60 + scale_notes.getD (rng.chordNote i % scale_notes.length) 0,
              60 + scale_notes.getD (rng.chordNote i % scale_notes.length) 0
                + scale_notes.getD 2 0,
              60 + scale_notes.getD (rng.chordNote i % scale_notes.length) 0
                + scale_notes.getD 4 0]
            (rng.chordInv i % 3)).enum audio
        obtain ⟨a2, h2, hlen⟩ := ih amid
        refine ⟨a2, ?_, by rw [hlen, hmidlen]⟩
        simp only [chordPass, if_pos hg, if_neg hu, hmid]
        exact h2
    · obtain ⟨a2, h2, hlen⟩ := ih audio
      refine ⟨a2, ?_, hlen⟩
      simp only [chordPass, if_neg hg]
      exact h2

theorem melodyPass_spec (rng : Rng) (tempo : ℝ) (scale_notes : List ℕ)
    (instrument : String) (hi : instrument ∈ validInstruments) :
    ∀ (is : List ℕ) (audio : List ℝ),
      ∃ a2, melodyPass rng tempo scale_notes instrument is audio = .ok a2 ∧
        a2.length = audio.length := by
  intro is
  induction is with
  | nil => exact fun audio => ⟨audio, rfl, rfl⟩
  | cons i rest ih =>
    intro audio
    by_cases hg : rng.melodyGate i < 0.3
    · obtain ⟨w, hw, -, -⟩ := generate_tone_spec
        (midi_to_freq ((60 + scale_notes.getD (rng.melodyNote i % scale_notes.length) 0 : ℕ) : ℝ))
        (60 / tempo * ([0.5, 1, 1.5].getD (rng.melodyDur i % 3) 1)) 0.07
        (rng.toneNoise i) instrument hi (by norm_num)
      obtain ⟨a2, h2, hlen⟩ := ih
        (addInto audio ((pyInt ((i : ℝ) * 44100 * 60 / tempo)).toNat)
          (apply_envelope w 0.05 0.5))
      refine ⟨a2, ?_, by rw [hlen, addInto_length]⟩
      simp only [melodyPass, if_pos hg, hw]
      exact h2
    · obtain ⟨a2, h2, hlen⟩ := ih audio
      refine ⟨a2, ?_, hlen⟩
      simp only [melodyPass, if_neg hg]
      exact h2

theorem pan_sample_bounds {s pan : ℝ} (h1 : -1 ≤ s) (h2 : s ≤ 1) (hp : |pan| ≤ 1 / 2) :
    (-1 ≤ s * (1 - pan) / 2 ∧ s * (1 - pan) / 2 ≤ 1) ∧
      (-1 ≤ s * (1 + pan) / 2 ∧ s * (1 + pan) / 2 ≤ 1) := by
  rw [abs_le] at hp
  have c1 : (0 : ℝ) ≤ 1 - pan := by linarith [hp.2]
  have c2 : (0 : ℝ) ≤ 1 + pan := by linarith [hp.1]
  have u1 := mul_le_mul_of_nonneg_right h2 c1
  have l1 := mul_le_mul_of_nonneg_right h1 c1
  have u2 := mul_le_mul_of_nonneg_right h2 c2
  have l2 := mul_le_mul_of_nonneg_right h1 c2
  refine ⟨⟨?_, ?_⟩, ?_, ?_⟩ <;> nlinarith [hp.1, hp.2]

/-- Full behaviour of `generate_procedural_chunk` needed by the claims:
with a known scale, a recognized instrument and the pan draw inside
[-0.5, 0.5], it returns `int(duration * 44100)` stereo frames, every
sample within [-1, 1]. -/
theorem generate_procedural_chunk_spec (duration tempo : ℝ) (scale instrument : String)
    (use_arpeggio : Bool) (rng : Rng) (hs : (SCALES scale).isSome)
    (hi : instrument ∈ validInstruments) (hpan : |rng.pan| ≤ 1 / 2) :
    ∃ out, generate_procedural_chunk duration tempo scale instrument use_arpeggio rng
        = .ok out ∧
      out.length = (pyInt (duration * 44100)).toNat ∧
      ∀ p ∈ out, (-1 ≤ p.1 ∧ p.1 ≤ 1) ∧ (-1 ≤ p.2 ∧ p.2 ≤ 1) := by
  obtain ⟨scale_notes, hsc⟩ := Option.isSome_iff_exists.mp hs
  obtain ⟨a1, h1, l1⟩ := dronePass_spec rng tempo scale_notes instrument hi
    (List.range ((pyInt (duration / 60 * tempo)).toNat))
    (List.replicate ((pyInt (duration * 44100)).toNat) 0)
  obtain ⟨a2, h2, l2⟩ := chordPass_spec rng tempo scale_notes instrument use_arpeggio hi
    (List.range ((pyInt (duration / 60 * tempo)).toNat / 2)) a1
  obtain ⟨a3, h3, l3⟩ := melodyPass_spec rng tempo scale_notes instrument hi
    (List.range ((pyInt (duration / 60 * tempo)).toNat)) a2
  have hN : a3.length = (pyInt (duration * 44100)).toNat := by
    rw [l3, l2, l1, List.length_replicate]
  refine ⟨apply_pan ((a3.zipWith (· + ·) (generate_noise duration 0.02 rng.noise)).map clip)
    rng.pan, ?_, ?_, ?_⟩
  · simp only [generate_procedural_chunk, hsc, h1, h2, h3]
  · simp only [apply_pan, List.length_map, List.length_zipWith, generate_noise,
      List.length_range, hN, SAMPLE_RATE, min_self]
  · intro p hp
    simp only [apply_pan, List.map_map, List.mem_map] at hp
    obtain ⟨y, -, rfl⟩ := hp
    obtain ⟨hc1, hc2⟩ := clip_mem y
    exact pan_sample_bounds hc1 hc2 hpan

theorem zipWith_add_replicate_zero :
    ∀ (l : List ℝ) (N : ℕ), l.length = N →
      (List.replicate N (0 : ℝ)).zipWith (· + ·) l = l := by
  intro l
  induction l with
  | nil => intro N h; subst h; rfl
  | cons x xs ih =>
    intro N h
    subst h
    simp only [List.length_cons, List.replicate_succ, List.zipWith_cons_cons, zero_add,
      List.cons.injEq, true_and]
    exact ih xs.length rfl

/-- C1 (amended): for positive duration and tempo, a known scale, a
recognized instrument, and the chunk pan draw inside [-0.5, 0.5],
`generate_procedural_chunk` returns a stereo (2-channel) chunk of exactly
`int(durationSec * 44100)` frames — Python truncation of the product, not
`round` — with every sample of both channels in [-1, 1]. -/
theorem generate_procedural_chunk_frames_amended
    (duration tempo : ℝ) (scale instrument : String) (use_arpeggio : Bool) (rng : Rng)
    (hd : 0 < duration) (ht : 0 < tempo) (hs : (SCALES scale).isSome)
    (hi : instrument ∈ validInstruments) (hpan : |rng.pan| ≤ 1 / 2) :
    ∃ out, generate_procedural_chunk duration tempo scale instrument use_arpeggio rng
        = .ok out ∧
      out.length = (pyInt (duration * 44100)).toNat ∧
      ∀ p ∈ out, (-1 ≤ p.1 ∧ p.1 ≤ 1) ∧ (-1 ≤ p.2 ∧ p.2 ≤ 1) :=
  generate_procedural_chunk_spec duration tempo scale instrument use_arpeggio rng hs hi hpan

/-- Witness for C1 at the spec's own instance: duration 5 s, tempo 60,
minor scale, sine, no arpeggio gives exactly 220500 stereo frames in
[-1, 1]. -/
theorem generate_procedural_chunk_frames_witness :
    (0 : ℝ) < 5 ∧ (0 : ℝ) < 60 ∧ (SCALES "minor").isSome = true ∧
      "sine" ∈ validInstruments ∧ |rng0.pan| ≤ 1 / 2 ∧
      ∃ out, generate_procedural_chunk 5 60 "minor" "sine" false rng0 = .ok out ∧
        out.length = 220500 ∧
        ∀ p ∈ out, (-1 ≤ p.1 ∧ p.1 ≤ 1) ∧ (-1 ≤ p.2 ∧ p.2 ≤ 1) := by
  have hpan : |rng0.pan| ≤ 1 / 2 := by
    simp only [rng0]
    norm_num
  have hs : (SCALES "minor").isSome = true := by simp [SCALES]
  have hi : "sine" ∈ validInstruments := by simp [validInstruments]
  obtain ⟨out, h, hlen, hb⟩ := generate_procedural_chunk_frames_amended 5 60 "minor"
    "sine" false rng0 (by norm_num) (by norm_num) hs hi hpan
  refine ⟨by norm_num, by norm_num, hs, hi, hpan, out, h, ?_, hb⟩
  rw [hlen]
  norm_num [pyInt]
  rfl

/-- C1 counterexample to the claim as stated: at duration `9/441000`
seconds (where `duration * 44100 = 0.9`), the generated chunk has 0
frames while `round(duration * 44100) = 1`. -/
theorem generate_procedural_chunk_round_counterexample :
    generate_procedural_chunk (9 / 441000) 60 "minor" "sine" false rng0 = .ok [] ∧
      (([] : List (ℝ × ℝ)).length : ℤ) ≠ round ((9 / 441000 : ℝ) * 44100) := by
  have hb : (pyInt ((9 / 441000 : ℝ) / 60 * 60)).toNat = 0 := by
    have e : (9 / 441000 : ℝ) / 60 * 60 = 9 / 441000 := by ring
    rw [e]
    norm_num [pyInt]
  have hN : (pyInt ((9 / 441000 : ℝ) * 44100)).toNat = 0 := by
    norm_num [pyInt]
  constructor
  · simp only [generate_procedural_chunk, hb, hN]
    simp [SCALES, dronePass, chordPass, melodyPass, generate_noise, SAMPLE_RATE, hN,
      apply_pan]
  · simp only [List.length_nil, Nat.cast_zero]
    norm_num [round_eq]

/-- C8: when the beat count `int(duration/60 * tempo)` is 0 and the scale
is known, `generate_procedural_chunk` still succeeds: every tonal loop is
empty, so the chunk is exactly the clipped noise layer panned into
stereo, with `int(duration * 44100)` frames, all samples in [-1, 1]. -/
theorem generate_procedural_chunk_zero_beats
    (duration tempo : ℝ) (scale instrument : String) (use_arpeggio : Bool) (rng : Rng)
    (hs : (SCALES scale).isSome) (hb : (pyInt (duration / 60 * tempo)).toNat = 0)
    (hpan : |rng.pan| ≤ 1 / 2) :
    generate_procedural_chunk duration tempo scale instrument use_arpeggio rng =
        .ok (apply_pan ((generate_noise duration 0.02 rng.noise).map clip) rng.pan) ∧
      (apply_pan ((generate_noise duration 0.02 rng.noise).map clip) rng.pan).length
        = (pyInt (duration * 44100)).toNat ∧
      ∀ p ∈ apply_pan ((generate_noise duration 0.02 rng.noise).map clip) rng.pan,
        (-1 ≤ p.1 ∧ p.1 ≤ 1) ∧ (-1 ≤ p.2 ∧ p.2 ≤ 1) := by
  obtain ⟨scale_notes, hsc⟩ := Option.isSome_iff_exists.mp hs
  have hnl : (generate_noise duration 0.02 rng.noise).length
      = (pyInt (duration * 44100)).toNat := by
    simp [generate_noise, SAMPLE_RATE]
  refine ⟨?_, ?_, ?_⟩
  · simp only [generate_procedural_chunk, hb, hsc, List.range_zero, Nat.zero_div,
      dronePass, chordPass, melodyPass]
    rw [zipWith_add_replicate_zero _ _ hnl]
  · rw [apply_pan, List.length_map, List.length_map, hnl]
  · intro p hp
    simp only [apply_pan, List.map_map, List.mem_map] at hp
    obtain ⟨y, -, rfl⟩ := hp
    obtain ⟨hc1, hc2⟩ := clip_mem y
    exact pan_sample_bounds hc1 hc2 hpan

/-- Witness for C8 at duration `1/44100` s, tempo 60: the beat count is 0
and the chunk is the panned clipped noise layer. -/
theorem generate_procedural_chunk_zero_beats_witness :
    (SCALES "minor").isSome = true ∧
      (pyInt ((1 / 44100 : ℝ) / 60 * 60)).toNat = 0 ∧ |rng0.pan| ≤ 1 / 2 ∧
      generate_procedural_chunk (1 / 44100) 60 "minor" "sine" false rng0 =
        .ok (apply_pan ((generate_noise (1 / 44100) 0.02 rng0.noise).map clip) rng0.pan) := by
  have hs : (SCALES "minor").isSome = true := by simp [SCALES]
  have hb : (pyInt ((1 / 44100 : ℝ) / 60 * 60)).toNat = 0 := by
    have e : (1 / 44100 : ℝ) / 60 * 60 = 1 / 44100 := by ring
    rw [e]
    norm_num [pyInt]
  have hpan : |rng0.pan| ≤ 1 / 2 := by
    simp only [rng0]
    norm_num
  exact ⟨hs, hb, hpan,
    (generate_procedural_chunk_zero_beats (1 / 44100) 60 "minor" "sine" false rng0
      hs hb hpan).1⟩

/-- C10: `LFO.step(dt)` adds exactly `2*pi*freq*dt` to `phase`, leaves
`freq`, `depth` and `waveform` unchanged, and for a waveform outside
{sine, triangle, square, sawtooth} (the phase still advancing) returns 0. -/
theorem LFO_step_frame_effect (l : LFO) (dt : ℝ) :
    ((l.step dt).1.freq = l.freq ∧ (l.step dt).1.depth = l.depth ∧
      (l.step dt).1.waveform = l.waveform ∧
      (l.step dt).1.phase = l.phase + 2 * π * l.freq * dt) ∧
    (l.waveform ∉ ["sine", "triangle", "square", "sawtooth"] → (l.step dt).2 = 0) := by
  refine ⟨⟨rfl, rfl, rfl, rfl⟩, fun h => ?_⟩
  simp only [List.mem_cons, List.not_mem_nil, or_false, not_or] at h
  obtain ⟨h1, h2, h3, h4⟩ := h
  simp [LFO.step, h1, h2, h3, h4]

/-- Witness for C10 at a concrete oscillator with unrecognized waveform
"weird": phase advances by `2*pi*freq*dt` and the emitted value is 0. -/
theorem LFO_step_frame_effect_witness :
    (("weird" : String) ∉ ["sine", "triangle", "square", "sawtooth"]) ∧
      ((LFO.mk 1 1 "weird" 0).step 1).1.phase = 0 + 2 * π * 1 * 1 ∧
      ((LFO.mk 1 1 "weird" 0).step 1).2 = 0 := by
  have h : ("weird" : String) ∉ ["sine", "triangle", "square", "sawtooth"] := by
    simp
  exact ⟨h, (LFO_step_frame_effect (LFO.mk 1 1 "weird" 0) 1).1.2.2.2,
    (LFO_step_frame_effect (LFO.mk 1 1 "weird" 0) 1).2 h⟩

/-- C6: with reverb, delay, chorus, phaser and widen amounts 0 and both
filter cutoffs at or below 20 Hz, every stage of `process_effects` is
skipped and the input chunk is returned changed only by the final
elementwise clip to [-1, 1]. -/
theorem process_effects_all_zero_identity (chunk : List (ℝ × ℝ))
    (lowpass_cutoff highpass_cutoff : ℝ)
    (hl : lowpass_cutoff ≤ 20) (hh : highpass_cutoff ≤ 20) :
    process_effects chunk 0 0 lowpass_cutoff highpass_cutoff 0 0 0 =
      .ok (chunk.map fun p => (clip p.1, clip p.2)) := by
  simp [process_effects, stageReverb, stageDelay, stageChorus, stagePhaser,
    stageWiden, stageLowpass, stageHighpass, not_lt.mpr hl, not_lt.mpr hh]

/-- Witness for C6 at a concrete chunk and cutoffs 20/20. -/
theorem process_effects_all_zero_witness :
    (20 : ℝ) ≤ 20 ∧
      process_effects [((2 : ℝ), (-2 : ℝ))] 0 0 20 20 0 0 0 =
        .ok ([((2 : ℝ), (-2 : ℝ))].map fun p => (clip p.1, clip p.2)) :=
  ⟨le_refl 20,
    process_effects_all_zero_identity [((2 : ℝ), (-2 : ℝ))] 20 20 (le_refl 20) (le_refl 20)⟩

/-- C4 counterexample to the claim as stated: the stereo-widen stage does
not clip, and on the in-range frame (1, -1) with amount 1 it produces the
sample 2, outside [-1, 1]. -/
theorem stereo_widen_exceeds_range :
    stageWiden [((1 : ℝ), (-1 : ℝ))] 1 = [((2 : ℝ), (-2 : ℝ))] ∧ ¬((2 : ℝ) ≤ 1) := by
  constructor
  · simp only [stageWiden, apply_stereo_widen, List.map_cons, List.map_nil]
    norm_num
  · norm_num

/-- C4 (amended): reverb, delay, chorus and phaser each end in
`np.clip(., -1, 1)`, so their outputs are sample-wise within [-1, 1], and
the final output of `process_effects` is clipped to [-1, 1]; the
stereo-widen and filter stages perform no clipping of their own. -/
theorem effect_stages_clip_amended :
    (∀ (s : List ℝ) (decay delay_time : ℝ),
      ∀ x ∈ apply_reverb s decay delay_time, -1 ≤ x ∧ x ≤ 1) ∧
    (∀ (s : List ℝ) (delay_time feedback : ℝ),
      ∀ x ∈ apply_delay s delay_time feedback, -1 ≤ x ∧ x ≤ 1) ∧
    (∀ (s : List ℝ) (depth rate : ℝ) (out : List ℝ),
      apply_chorus s depth rate = .ok out → ∀ x ∈ out, -1 ≤ x ∧ x ≤ 1) ∧
    (∀ (s : List ℝ) (rate depth : ℝ) (out : List ℝ),
      apply_phaser s rate depth = .ok out → ∀ x ∈ out, -1 ≤ x ∧ x ≤ 1) ∧
    (∀ (chunk : List (ℝ × ℝ)) (r d lc hc c p w : ℝ) (out : List (ℝ × ℝ)),
      process_effects chunk r d lc hc c p w = .ok out →
      ∀ q ∈ out, (-1 ≤ q.1 ∧ q.1 ≤ 1) ∧ (-1 ≤ q.2 ∧ q.2 ≤ 1)) := by
  refine ⟨?_, ?_, ?_, ?_, ?_⟩
  · intro s decay delay_time x hx
    obtain ⟨y, -, rfl⟩ := List.mem_map.mp hx
    exact clip_mem y
  · intro s delay_time feedback x hx
    obtain ⟨y, -, rfl⟩ := List.mem_map.mp hx
    exact clip_mem y
  · intro s depth rate out h x hx
    simp only [apply_chorus] at h
    split at h
    · simp only [Except.ok.injEq] at h
      subst h
      obtain ⟨y, -, rfl⟩ := List.mem_map.mp hx
      exact clip_mem y
    · exact absurd h (by simp)
  · intro s rate depth out h x hx
    simp only [apply_phaser] at h
    split at h
    · simp only [Except.ok.injEq] at h
      subst h
      obtain ⟨y, -, rfl⟩ := List.mem_map.mp hx
      exact clip_mem y
    · exact absurd h (by simp)
  · intro chunk r d lc hc c p w out h q hq
    unfold process_effects at h
    rcases h3 : stageChorus (stageDelay (stageReverb chunk r) d) c with e3 | c3
    · rw [h3] at h
      simp at h
    · simp only [h3] at h
      rcases h4 : stagePhaser c3 p with e4 | c4
      · rw [h4] at h
        simp at h
      · simp only [h4, Except.ok.injEq] at h
        subst h
        obtain ⟨y, -, rfl⟩ := List.mem_map.mp hq
        exact ⟨clip_mem y.1, clip_mem y.2⟩

/-- Witness for C4 applying the final-output conjunct at a concrete run of
`process_effects`. -/
theorem effect_stages_clip_witness :
    process_effects [((0 : ℝ), (0 : ℝ))] 0 0 0 0 0 0 0 = .ok [((0 : ℝ), (0 : ℝ))] ∧
      ∀ q ∈ ([((0 : ℝ), (0 : ℝ))] : List (ℝ × ℝ)),
        (-1 ≤ q.1 ∧ q.1 ≤ 1) ∧ (-1 ≤ q.2 ∧ q.2 ≤ 1) := by
  have he : process_effects [((0 : ℝ), (0 : ℝ))] 0 0 0 0 0 0 0 =
      .ok [((0 : ℝ), (0 : ℝ))] := by
    norm_num [process_effects, stageReverb, stageDelay, stageChorus, stagePhaser,
      stageWiden, stageLowpass, stageHighpass, clip, min_def, max_def]
  exact ⟨he, effect_stages_clip_amended.2.2.2.2 _ 0 0 0 0 0 0 0 _ he⟩

/-- C3 counterexample to the claim as stated: `apply_filter` itself has no
bypass; at cutoff 20 (low-pass) it scales the single-sample signal 1 by
`omega/(omega+1)`, which is not 1, so the input is not returned
unchanged. -/
theorem apply_filter_cutoff20_not_identity :
    apply_filter [((1 : ℝ), (1 : ℝ))] "low" 20 ≠ [((1 : ℝ), (1 : ℝ))] := by
  have hπ := Real.pi_pos
  have hω : (0 : ℝ) < 2 * π * 20 / SAMPLE_RATE := by
    simp only [SAMPLE_RATE]
    positivity
  have hev : apply_filter [((1 : ℝ), (1 : ℝ))] "low" 20 =
      [((2 * π * 20 / SAMPLE_RATE) / (2 * π * 20 / SAMPLE_RATE + 1),
        (2 * π * 20 / SAMPLE_RATE) / (2 * π * 20 / SAMPLE_RATE + 1))] := by
    simp [apply_filter, lfilter, lfilterGo, Finset.sum_range_one]
  rw [hev]
  intro h
  simp only [List.cons.injEq, Prod.mk.injEq, and_true, and_self] at h
  rw [div_eq_one_iff_eq (by linarith)] at h
  linarith

/-- C3 (amended): the cutoff <= 20 no-op bypass lives in
`process_effects`, whose filter stages skip `apply_filter` entirely and
pass the chunk through unchanged whenever the cutoff is at or below
20 Hz. -/
theorem filter_bypass_in_process_effects :
    (∀ (chunk : List (ℝ × ℝ)) (cutoff : ℝ), cutoff ≤ 20 →
      stageLowpass chunk cutoff = chunk) ∧
    (∀ (chunk : List (ℝ × ℝ)) (cutoff : ℝ), cutoff ≤ 20 →
      stageHighpass chunk cutoff = chunk) := by
  constructor <;> intro chunk cutoff h
  · simp [stageLowpass, not_lt.mpr h]
  · simp [stageHighpass, not_lt.mpr h]

/-- Witness for C3 at cutoff exactly 20 on a concrete chunk. -/
theorem filter_bypass_witness :
    (20 : ℝ) ≤ 20 ∧ stageLowpass [((1 : ℝ), (1 : ℝ))] 20 = [((1 : ℝ), (1 : ℝ))] ∧
      stageHighpass [((1 : ℝ), (1 : ℝ))] 20 = [((1 : ℝ), (1 : ℝ))] :=
  ⟨le_refl 20, filter_bypass_in_process_effects.1 _ 20 (le_refl 20),
    filter_bypass_in_process_effects.2 _ 20 (le_refl 20)⟩

/-- C5 (amended): `generate_tone` returns `int(44100 * duration)` samples
(truncation, not `round`); for the five deterministic waveforms every
sample lies in [-volume, volume]; the `noise_pad` buffer has the same
length but consists of envelope-shaped Gaussian draws not bounded by the
volume. -/
theorem generate_tone_length_bound_amended (frequency duration volume : ℝ)
    (noise : ℕ → ℝ) (instrument : String) (hi : instrument ∈ validInstruments)
    (hv : 0 ≤ volume) :
    ∃ w, generate_tone frequency duration instrument volume noise = .ok w ∧
      w.length = (pyInt (SAMPLE_RATE * duration)).toNat ∧
      (instrument ≠ "noise_pad" → ∀ x ∈ w, |x| ≤ volume) :=
  generate_tone_spec frequency duration volume noise instrument hi hv

/-- Witness for C5 at the sine waveform, 440 Hz, 1 s, volume 0.2. -/
theorem generate_tone_length_bound_witness :
    ("sine" ∈ validInstruments) ∧ (0 : ℝ) ≤ 0.2 ∧
      ∃ w, generate_tone 440 1 "sine" 0.2 (fun _ => 0) = .ok w ∧
        w.length = (pyInt (SAMPLE_RATE * 1)).toNat ∧
        (("sine" : String) ≠ "noise_pad" → ∀ x ∈ w, |x| ≤ 0.2) :=
  ⟨by simp [validInstruments], by norm_num,
    generate_tone_length_bound_amended 440 1 0.2 (fun _ => 0) "sine"
      (by simp [validInstruments]) (by norm_num)⟩

/-- C5 counterexample to the claim as stated: first, at duration
`9/441000` s the sine buffer has 0 samples, not `round(0.9) = 1`;
second, a `noise_pad` Gaussian draw of 2 survives the envelope at full
gain and yields the sample 0.4, outside [-volume, volume] for
volume 0.2. -/
theorem generate_tone_length_and_noise_counterexample :
    (generate_tone 440 (9 / 441000) "sine" 0.2 (fun _ => 0) = .ok [] ∧
      round ((9 / 441000 : ℝ) * 44100) = 1) ∧
    (generate_tone 440 (2 / 44100) "noise_pad" 0.2 (fun _ => 2) = .ok [0, 0.4] ∧
      ¬(|(0.4 : ℝ)| ≤ 0.2)) := by
  refine ⟨⟨?_, ?_⟩, ⟨?_, ?_⟩⟩
  · have hN : (pyInt (SAMPLE_RATE * (9 / 441000 : ℝ))).toNat = 0 := by
      norm_num [SAMPLE_RATE, pyInt]
    rw [generate_tone_sine, hN]
    simp [linspaceF]
  · norm_num [round_eq]
  · have hN : (pyInt (SAMPLE_RATE * (2 / 44100 : ℝ))).toNat = 2 := by
      norm_num [SAMPLE_RATE, pyInt]
      rfl
    rw [generate_tone_noise_pad, hN]
    have h1 : (List.range 2).map (fun _ => (2 : ℝ)) = [2, 2] := by
      rw [show List.range 2 = [0, 1] from by decide]
      simp
    rw [h1]
    have h2 : apply_envelope [(2 : ℝ), 2] 0.5 0.7 = [0, 2] := by
      unfold apply_envelope
      norm_num [pyInt]
      rw [show List.range 2 = [0, 1] from by decide]
      norm_num [envVal, linspaceVal]
    rw [h2]
    norm_num
  · rw [abs_of_nonneg (by norm_num)]
    norm_num

/-- C7 (amended): an instrument name outside the six recognized waveforms
makes `generate_tone` fail — but with Python's `UnboundLocalError` from
the never-assigned `wave`, not with a typed `InvalidParameter` error; it
does not silently return a buffer. -/
theorem generate_tone_unknown_unbound_local (frequency duration volume : ℝ)
    (noise : ℕ → ℝ) (instrument : String) (hi : instrument ∉ validInstruments) :
    generate_tone frequency duration instrument volume noise =
      .error .unboundLocalError :=
  generate_tone_unknown frequency duration volume noise instrument hi

/-- Witness for C7 at the unknown instrument name "banjo". -/
theorem generate_tone_unknown_witness :
    (("banjo" : String) ∉ validInstruments) ∧
      generate_tone 440 1 "banjo" 0.2 (fun _ => 0) = .error .unboundLocalError := by
  have h : ("banjo" : String) ∉ validInstruments := by simp [validInstruments]
  exact ⟨h, generate_tone_unknown_unbound_local 440 1 0.2 (fun _ => 0) "banjo" h⟩

/-- C7 counterexample to the claim as stated: on "banjo" the failure is
`UnboundLocalError`, which is not the `InvalidParameter` error the claim
names. -/
theorem generate_tone_unknown_error_counterexample :
    generate_tone 440 1 "banjo" 0.2 (fun _ => 0) = .error .unboundLocalError ∧
      PyError.unboundLocalError ≠ PyError.invalidParameter := by
  constructor
  · exact generate_tone_unknown 440 1 0.2 (fun _ => 0) "banjo" (by simp [validInstruments])
  · decide

/-- C2 (code bug): for chord [60, 64, 67], duration one beat at tempo 60,
style "up", the `note` values the arpeggio loop passes to `midi_to_freq`
are the order indices [0, 1, 2] — none of them a chord pitch — and the
frequency rendered for the first slot, `midi_to_freq 0`, differs from the
chord tone frequency `midi_to_freq 60` the spec requires. -/
theorem generate_arpeggio_uses_indices_not_chord :
    arpeggioNotes [60, 64, 67] 1 "up" [] = [0, 1, 2] ∧
      (∀ m ∈ ([0, 1, 2] : List ℕ), m ∉ ([60, 64, 67] : List ℕ)) ∧
      midi_to_freq 0 < midi_to_freq 60 := by
  refine ⟨by decide, by decide, ?_⟩
  unfold midi_to_freq
  rw [mul_lt_mul_left (by norm_num : (0 : ℝ) < 440),
    Real.rpow_lt_rpow_left_iff (by norm_num : (1 : ℝ) < 2)]
  norm_num

/-- C9 counterexample to the claim as stated: on a 132301-sample signal at
the default chorus depth 0.003 and rate 0.25, the loop index 132300 has
modulation `int(132 * sin(3*pi/2)) = -132`, so the read index is
132432 >= 132301 and `apply_chorus` fails with `IndexError`. -/
theorem apply_chorus_index_error :
    apply_chorus (List.replicate 132301 (0 : ℝ)) 0.003 0.25 = .error .indexError := by
  have hd : (pyInt ((0.003 : ℝ) * SAMPLE_RATE)).toNat = 132 := by
    norm_num [SAMPLE_RATE, pyInt]
    rfl
  simp only [apply_chorus, List.length_replicate, hd]
  split
  · next hall =>
    exfalso
    have hmem : (132300 : ℕ) ∈ List.range' 132 (132301 - 132) := by
      rw [List.mem_range']
      exact ⟨132168, by norm_num, by norm_num⟩
    have h2 := hall 132300 hmem
    have e : 2 * π * (0.25 : ℝ) * ((132300 : ℕ) : ℝ) / SAMPLE_RATE = π / 2 + π := by
      simp only [SAMPLE_RATE]
      push_cast
      ring
    have hsin : Real.sin (2 * π * (0.25 : ℝ) * ((132300 : ℕ) : ℝ) / SAMPLE_RATE)
        = -1 := by
      rw [e, Real.sin_add_pi, Real.sin_pi_div_two]
    have hmod : chorusMod 132 0.25 132300 = -132 := by
      unfold chorusMod
      rw [hsin]
      norm_num [pyInt]
    rw [hmod] at h2
    norm_num at h2
  · rfl

/-- C9 (amended): reads in `apply_chorus` never go below index 0 (the loop
starts at the delay offset, which bounds the modulation), and the guard
in `apply_phaser` blocks negative reads; but the read index can pass the
end of the signal once the modulation sine goes negative.  Both functions
are safe — every read in range, no `IndexError` — whenever rate and depth
are nonnegative and the signal is short enough that the modulation phase
`2*pi*rate*i/44100` stays within the first half cycle,
i.e. `2*rate*(length-1) <= 44100`. -/
theorem chorus_phaser_safe_first_half_cycle (signal : List ℝ) (rate depth : ℝ)
    (hr : 0 ≤ rate) (hdep : 0 ≤ depth)
    (hhalf : 2 * rate * ((signal.length : ℝ) - 1) ≤ 44100) :
    (∃ out, apply_chorus signal depth rate = .ok out) ∧
      ∃ out, apply_phaser signal rate depth = .ok out := by
  have key : ∀ i : ℕ, i < signal.length →
      0 ≤ Real.sin (2 * π * rate * (i : ℝ) / SAMPLE_RATE) := by
    intro i hi
    apply Real.sin_nonneg_of_nonneg_of_le_pi
    · simp only [SAMPLE_RATE]
      positivity
    · simp only [SAMPLE_RATE]
      have hi1 : (i : ℝ) ≤ (signal.length : ℝ) - 1 := by
        have : (i : ℝ) + 1 ≤ (signal.length : ℝ) := by exact_mod_cast hi
        linarith

      have h1 : 2 * rate * (i : ℝ) ≤ 44100 :=
        le_trans (mul_le_mul_of_nonneg_left hi1 (by linarith)) hhalf
      have hπ := Real.pi_pos
      rw [div_le_iff₀ (by norm_num : (0 : ℝ) < 44100)]
      nlinarith [mul_nonneg hπ.le (sub_nonneg.mpr h1)]
  have hsafe1 : ∀ i ∈ List.range' ((pyInt (depth * SAMPLE_RATE)).toNat)
      (signal.length - (pyInt (depth * SAMPLE_RATE)).toNat),
      (i : ℤ) - chorusMod ((pyInt (depth * SAMPLE_RATE)).toNat) rate i
        < (signal.length : ℤ) := by
    intro i hi
    rw [List.mem_range'] at hi
    obtain ⟨j, hj, rfl⟩ := hi
    simp only [one_mul]
    have hin : (pyInt (depth * SAMPLE_RATE)).toNat + j < signal.length := by omega
    have hs := key _ hin
    have hmodnn : 0 ≤ chorusMod ((pyInt (depth * SAMPLE_RATE)).toNat) rate
        ((pyInt (depth * SAMPLE_RATE)).toNat + j) := by
      unfold chorusMod
      exact pyInt_nonneg (mul_nonneg (Nat.cast_nonneg _) hs)
    omega
  have hsafe2 : ∀ i ∈ List.range signal.length,
      0 ≤ (i : ℤ) - phaserShift depth rate i →
      (i : ℤ) - phaserShift depth rate i < (signal.length : ℤ) := by
    intro i hi hge
    rw [List.mem_range] at hi
    have hs := key i hi
    have hshiftnn : 0 ≤ phaserShift depth rate i := by
      unfold phaserShift
      exact pyInt_nonneg
        (mul_nonneg (mul_nonneg hdep (by norm_num [SAMPLE_RATE])) hs)
    omega
  constructor
  · use (((List.range' ((pyInt (depth * SAMPLE_RATE)).toNat)
      (signal.length - (pyInt (depth * SAMPLE_RATE)).toNat)).foldl
      (fun o i => o.set i (o.getD i 0 + 0.5 * signal.getD
        ((i : ℤ) - chorusMod ((pyInt (depth * SAMPLE_RATE)).toNat) rate i).toNat 0))
      signal).map clip)
    simp only [apply_chorus]
    rw [if_pos hsafe1]
  · use (((List.range signal.length).foldl
      (fun (o : List ℝ) (i : ℕ) =>
        if 0 ≤ (i : ℤ) - phaserShift depth rate i then
          o.set i (o.getD i 0 + signal.getD ((i : ℤ) - phaserShift depth rate i).toNat 0)
        else o)
      signal).map clip)
    simp only [apply_phaser]
    rw [if_pos hsafe2]

/-- Witness for C9 at a concrete short signal with rate = depth = 0. -/
theorem chorus_phaser_safe_witness :
    (0 : ℝ) ≤ 0 ∧ 2 * (0 : ℝ) * ((([(1 : ℝ), 2]).length : ℝ) - 1) ≤ 44100 ∧
      (∃ out, apply_chorus [(1 : ℝ), 2] 0 0 = .ok out) ∧
      ∃ out, apply_phaser [(1 : ℝ), 2] 0 0 = .ok out := by
  have h := chorus_phaser_safe_first_half_cycle [(1 : ℝ), 2] 0 0 le_rfl le_rfl
    (by norm_num)
  exact ⟨le_rfl, by norm_num, h.1, h.2⟩

end
